import Mathlib

/-!
# go-reposter: the access lists, the command handlers and the relay

A shallow embedding of `main.go`.  The Redis client and the telebot client are
external; they are modelled by a `World` that holds the store's sets, the log
of the platform calls the program made, and one fault schedule per kind of
external call (every external call takes the next entry of its schedule, and
fails with that entry's text when the entry is `some text`).
-/

namespace Reposter

/-! ## Constants and configuration -/

def RedisAdmins : String := "admins"
def RedisSources : String := "src"
def RedisDestinations : String := "dst"
def RedisChatsAdded : String := "allowed"

/-- The fields of `Config` that the handlers read. -/
structure Config where
  Token : String
  RedisPrefix : String

/-- Go's `strings.Join(values, ":")`. -/
def Key (values : List String) : String :=
  ":".intercalate values

/-- The default prefix that `main` installs when the configured one is empty. -/
def defaultPrefix (cfg : Config) : Config :=
  if cfg.RedisPrefix = "" then
    { cfg with RedisPrefix := "go-reposter:bot" ++ cfg.Token }
  else cfg

/-! ## Go values -/

/-- A Go `error` value: `none` is `nil`, `some text` an error whose `Error()` is `text`. -/
abbrev GoError := Option String

/-- The way a handler ends: it returns an `error` value, or it panics. -/
inductive Outcome where
  | ret (err : GoError)
  | panic
  deriving DecidableEq, Repr

deriving instance DecidableEq for Except

/-! ## Library functions of the Go standard library -/

/-- Go's `strings.Join`. -/
def Join (elems : List String) (sep : String) : String :=
  sep.intercalate elems

/-- The scan of a `fmt.Sprintf` format over characters, for the verbs `%s` and
`%v` applied to operands that are already rendered as text; every call site of
the program passes as many operands as the format has verbs.  A verb without
an operand prints Go's `%!s(MISSING)` marker, and `%%` prints a percent sign. -/
def SprintfAux : List Char → List String → List Char
  | [], _ => []
  | [c], _ => [c]
  | c :: d :: rest, args =>
    if c = '%' ∧ (d = 's' ∨ d = 'v') then
      match args with
      | a :: args2 => a.data ++ SprintfAux rest args2
      | [] => ['%', '!', d, '(', 'M', 'I', 'S', 'S', 'I', 'N', 'G', ')'] ++ SprintfAux rest []
    else if c = '%' ∧ d = '%' then '%' :: SprintfAux rest args
    else c :: SprintfAux (d :: rest) args

/-- Go's `fmt.Sprintf` on the formats the program uses. -/
def Sprintf (format : String) (args : List String) : String :=
  ⟨SprintfAux format.data args⟩

/-- The loop of `strconv.ParseUint(s, 10, 64)` over the characters: a
character that is not a decimal digit ends it with a syntax error, and a value
that leaves the uint64 range ends it with a range error.  The error is given
by its reason text. -/
def parseUintAux : List Char → Nat → Except String Nat
  | [], n => .ok n
  | c :: cs, n =>
    if c.isDigit then
      if n * 10 + (c.toNat - '0'.toNat) ≥ 2 ^ 64 then .error "value out of range"
      else parseUintAux cs (n * 10 + (c.toNat - '0'.toNat))
    else .error "invalid syntax"

/-- The text of a `*strconv.NumError` of `ParseInt` (the quoting of the input
is written without Go's escapes). -/
def numError (s reason : String) : String :=
  "strconv.ParseInt: parsing \"" ++ s ++ "\": " ++ reason

/-- Go's `strconv.ParseInt(s, 10, 64)`: an optional sign, then at least one
decimal digit and nothing else, and a value within the int64 range. -/
def ParseInt (s : String) : Except String Int :=
  let body (neg : Bool) (ds : List Char) : Except String Int :=
    if ds = [] then .error (numError s "invalid syntax")
    else
      match parseUintAux ds 0 with
      | .error reason => .error (numError s reason)
      | .ok un =>
        if neg then
          if un > 2 ^ 63 then .error (numError s "value out of range")
          else .ok (-(un : Int))
        else
          if un ≥ 2 ^ 63 then .error (numError s "value out of range")
          else .ok (un : Int)
  match s.data with
  | [] => .error (numError s "invalid syntax")
  | c :: cs =>
    if c = '+' then body false cs
    else if c = '-' then body true cs
    else body false (c :: cs)

/-! ## The external world: the Redis store and the messaging platform -/

/-- The store's sets (each key maps to its members in enumeration order; a key
that does not exist is the empty set), the fault schedules of the external
calls, and the log of the platform calls made so far.  `log.Printf` writes to
the process's standard error only and is not part of the state. -/
@[ext]
structure World where
  db : String → List String
  storeFaults : List GoError
  replyFaults : List GoError
  forwardFaults : List GoError
  sendFaults : List GoError
  replies : List String
  forwards : List Int
  sends : List (Int × String)

/-- A set after the insertion of `member`: a member that is present is not
added again.  Redis leaves the place of a new member in the enumeration
unspecified; here it is the end, and no theorem below depends on the place. -/
def setAdd (members : List String) (member : String) : List String :=
  if member ∈ members then members else members ++ [member]

/-- A set after the removal of `member` (a Redis set holds a member once, so
the removal leaves no occurrence). -/
def setRem (members : List String) (member : String) : List String :=
  members.filter (fun m => m ≠ member)

/-- Redis `SISMEMBER key member`. -/
def SIsMember (key member : String) (w : World) : World × Except String Bool :=
  let w1 := { w with storeFaults := w.storeFaults.tail }
  match w.storeFaults.headD none with
  | some e => (w1, .error e)
  | none => (w1, .ok (decide (member ∈ w.db key)))

/-- Redis `SMEMBERS key`. -/
def SMembers (key : String) (w : World) : World × Except String (List String) :=
  let w1 := { w with storeFaults := w.storeFaults.tail }
  match w.storeFaults.headD none with
  | some e => (w1, .error e)
  | none => (w1, .ok (w.db key))

/-- Redis `SADD key member`. -/
def SAdd (key member : String) (w : World) : World × GoError :=
  let w1 := { w with storeFaults := w.storeFaults.tail }
  match w.storeFaults.headD none with
  | some e => (w1, some e)
  | none =>
    ({ w1 with db := fun k => if k = key then setAdd (w.db key) member else w.db k }, none)

/-- Redis `SREM key member`. -/
def SRem (key member : String) (w : World) : World × GoError :=
  let w1 := { w with storeFaults := w.storeFaults.tail }
  match w.storeFaults.headD none with
  | some e => (w1, some e)
  | none =>
    ({ w1 with db := fun k => if k = key then setRem (w.db key) member else w.db k }, none)

/-- Redis `DEL key...`. -/
def Del (keys : List String) (w : World) : World × GoError :=
  let w1 := { w with storeFaults := w.storeFaults.tail }
  match w.storeFaults.headD none with
  | some e => (w1, some e)
  | none => ({ w1 with db := fun k => if k ∈ keys then [] else w.db k }, none)

/-- The event a handler receives (`telebot.Context`): the identity of the chat
the message was posted in, the identity of its sender, and the command's
arguments. -/
structure Context where
  chat : Int
  sender : Int
  args : List String

/-- Telebot `c.Reply(text)`: the call is logged, and fails when the schedule says so. -/
def Reply (text : String) (w : World) : World × GoError :=
  ({ w with replies := w.replies ++ [text], replyFaults := w.replyFaults.tail },
    w.replyFaults.headD none)

/-- Telebot `c.ForwardTo(&telebot.Chat{ID: dest})`. -/
def ForwardTo (dest : Int) (w : World) : World × GoError :=
  ({ w with forwards := w.forwards ++ [dest], forwardFaults := w.forwardFaults.tail },
    w.forwardFaults.headD none)

/-- Telebot `c.Bot().Send(&telebot.Chat{ID: dest}, text)`. -/
def Send (dest : Int) (text : String) (w : World) : World × GoError :=
  ({ w with sends := w.sends ++ [(dest, text)], sendFaults := w.sendFaults.tail },
    w.sendFaults.headD none)

/-! ## The functions of `main.go` -/

/-- `ReplyTemporary`: the reply is sent through `Bot().Reply`; the deletion
after `TmpMsgLifetime` runs detached and its result is discarded. -/
def ReplyTemporary (what : String) (w : World) : World × GoError :=
  Reply what w

/-- `Ok`: an error is returned as it is, without a reply; otherwise the
short-lived `+` acknowledgment is sent. -/
def Ok (err : GoError) (w : World) : World × GoError :=
  match err with
  | some e => (w, some e)
  | none => ReplyTemporary "+" w

/-- `Contains`: the value is rendered by the Redis client (a string as it is,
an int64 in decimal). -/
def Contains {T : Type} [ToString T] (cfg : Config) (key : String) (what : T) (w : World) :
    World × Except String Bool :=
  SIsMember (Key [cfg.RedisPrefix, key]) (toString what) w

/-- The parsing loop of `SMembersInt64`: the first member that does not parse
ends the read with its error. -/
def parseMembers : List String → Except String (List Int)
  | [] => .ok []
  | str :: rest =>
    match ParseInt str with
    | .error e => .error e
    | .ok v =>
      match parseMembers rest with
      | .error e => .error e
      | .ok vs => .ok (v :: vs)

/-- `SMembersInt64`. -/
def SMembersInt64 (cfg : Config) (key : String) (w : World) : World × Except String (List Int) :=
  match SMembers (Key [cfg.RedisPrefix, key]) w with
  | (w1, .error e) => (w1, .error e)
  | (w1, .ok members) => (w1, parseMembers members)

/-- `SAddT`: one `SADD` per element, rendered with `%v`; the first error ends the loop. -/
def SAddT {T : Type} [ToString T] (cfg : Config) (key : String) :
    List T → World → World × GoError
  | [], w => (w, none)
  | el :: rest, w =>
    match SAdd (Key [cfg.RedisPrefix, key]) (Sprintf "%v" [toString el]) w with
    | (w1, some e) => (w1, some e)
    | (w1, none) => SAddT cfg key rest w1

/-- `SRemT`: one `SREM` per element, rendered with `%v`; the first error ends the loop. -/
def SRemT {T : Type} [ToString T] (cfg : Config) (key : String) :
    List T → World → World × GoError
  | [], w => (w, none)
  | el :: rest, w =>
    match SRem (Key [cfg.RedisPrefix, key]) (Sprintf "%v" [toString el]) w with
    | (w1, some e) => (w1, some e)
    | (w1, none) => SRemT cfg key rest w1

/-- The loop of the process-wide error callback over the admins.  The callback
assigns the result of each `Send` to its own `err` parameter, so `err` is `nil`
after a send that succeeded, and `err.Error()` on a `nil` error panics. -/
def onErrorLoop : List Int → GoError → World → World × Bool
  | [], _, w => (w, false)
  | _ :: _, none, w => (w, true)
  | admin :: rest, some e, w =>
    match Send admin e w with
    | (w1, err) => onErrorLoop rest err w1

/-- The `OnError` callback installed by `main`: it reads the Admin Set
(ignoring a failed read, which leaves no admins to notify) and runs the loop
with the error it was given.  The second component tells whether it panicked. -/
def OnError (cfg : Config) (err : GoError) (w : World) : World × Bool :=
  match SMembersInt64 cfg RedisAdmins w with
  | (w1, .error _) => onErrorLoop [] err w1
  | (w1, .ok admins) => onErrorLoop admins err w1

/-- The text of the `/start` reply. -/
def helpText : String :=
  "Hiii, this bot is made for reposting your lovely channels to your comfy chats\n" ++
  "\n" ++
  "/info  -- get admins/channels/chats list\n" ++
  "/setup -- if you just started use this command\n" ++
  "/ping  -- check if the bot is online \n" ++
  "/clear -- remove all admins/channels/chats\n" ++
  "\n" ++
  "/add_admin, /add_chan, /add_chat <...> -- example: /add_chan 123 -456 -780\n" ++
  "/del_admin, /del_chan, /del_chat <...> -- remove some admins/channels/chats"

/-- The `/start` handler. -/
def handle_start (cfg : Config) (c : Context) (w : World) : World × Outcome :=
  match SMembersInt64 cfg RedisAdmins w with
  | (w1, .error e) => (w1, .ret (some e))
  | (w1, .ok admins) =>
    match Contains cfg RedisAdmins c.chat w1 with
    | (w2, .error e) => (w2, .ret (some e))
    | (w2, .ok isAdmin) =>
      if admins.length = 0 ∨ isAdmin = true then
        match Reply helpText w2 with
        | (w3, err) => (w3, .ret err)
      else (w2, .ret none)

/-- The loop of `/add_chan` and `/add_chat` that warns about arguments missing
from the Membership Set; a failed membership read and a failed reply are both
ignored. -/
def noteLoop (cfg : Config) (format : String) : List String → World → World
  | [], w => w
  | arg :: rest, w =>
    match Contains cfg RedisChatsAdded arg w with
    | (w1, .ok false) => noteLoop cfg format rest (Reply (Sprintf format [arg]) w1).1
    | (w1, _) => noteLoop cfg format rest w1

/-- The `/add_chan` handler. -/
def handle_add_chan (cfg : Config) (c : Context) (w : World) : World × Outcome :=
  match Contains cfg RedisAdmins c.chat w with
  | (w1, .error e) => (w1, .ret (some e))
  | (w1, .ok isAdmin) =>
    if isAdmin = true then
      let w2 := noteLoop cfg "Note: seems like bot isn't in the chan %s" c.args w1
      match SAddT cfg RedisSources c.args w2 with
      | (w3, err) =>
        match Ok err w3 with
        | (w4, r) => (w4, .ret r)
    else (w1, .ret none)

/-- The `/add_chat` handler. -/
def handle_add_chat (cfg : Config) (c : Context) (w : World) : World × Outcome :=
  match Contains cfg RedisAdmins c.chat w with
  | (w1, .error e) => (w1, .ret (some e))
  | (w1, .ok isAdmin) =>
    if isAdmin = true then
      let w2 := noteLoop cfg "Note: seems like bot isn't in the chat %s" c.args w1
      match SAddT cfg RedisDestinations c.args w2 with
      | (w3, err) =>
        match Ok err w3 with
        | (w4, r) => (w4, .ret r)
    else (w1, .ret none)

/-- The `/add_admin` handler. -/
def handle_add_admin (cfg : Config) (c : Context) (w : World) : World × Outcome :=
  match Contains cfg RedisAdmins c.chat w with
  | (w1, .error e) => (w1, .ret (some e))
  | (w1, .ok isAdmin) =>
    if isAdmin = true then
      match SAddT cfg RedisAdmins c.args w1 with
      | (w2, err) =>
        match Ok err w2 with
        | (w3, r) => (w3, .ret r)
    else (w1, .ret none)

/-- The format of the `/info` reply. -/
def infoFormat : String :=
  "- ADMINS:\n" ++ "%s\n" ++ "---\n" ++ "- REPOST FROM:\n" ++ "%s\n" ++ "---\n" ++
  "- REPOST TO:\n" ++ "%s"

/-- The `/info` handler. -/
def handle_info (cfg : Config) (c : Context) (w : World) : World × Outcome :=
  match Contains cfg RedisAdmins c.chat w with
  | (w1, .error e) => (w1, .ret (some e))
  | (w1, .ok isAdmin) =>
    if isAdmin = true then
      match SMembers (Key [cfg.RedisPrefix, RedisAdmins]) w1 with
      | (w2, .error e) => (w2, .ret (some e))
      | (w2, .ok admins) =>
        match SMembers (Key [cfg.RedisPrefix, RedisSources]) w2 with
        | (w3, .error e) => (w3, .ret (some e))
        | (w3, .ok src) =>
          match SMembers (Key [cfg.RedisPrefix, RedisDestinations]) w3 with
          | (w4, .error e) => (w4, .ret (some e))
          | (w4, .ok dst) =>
            match Reply (Sprintf infoFormat [Join admins "\n", Join src "\n", Join dst "\n"]) w4 with
            | (w5, err) => (w5, .ret err)
    else (w1, .ret none)

/-- The `/clear` handler: the deletion is guarded by the admin check and its
result is discarded; the reply is not guarded. -/
def handle_clear (cfg : Config) (c : Context) (w : World) : World × Outcome :=
  match Contains cfg RedisAdmins c.chat w with
  | (w1, .error e) => (w1, .ret (some e))
  | (w1, .ok isAdmin) =>
    let w2 :=
      if isAdmin = true then
        (Del [Key [cfg.RedisPrefix, RedisAdmins], Key [cfg.RedisPrefix, RedisSources],
              Key [cfg.RedisPrefix, RedisDestinations], Key [cfg.RedisPrefix, RedisChatsAdded]] w1).1
      else w1
    match Reply "cleared.\n/setup?" w2 with
    | (w3, err) => (w3, .ret err)

/-- The `/del_chan` handler. -/
def handle_del_chan (cfg : Config) (c : Context) (w : World) : World × Outcome :=
  match Contains cfg RedisAdmins c.chat w with
  | (w1, .error e) => (w1, .ret (some e))
  | (w1, .ok isAdmin) =>
    if isAdmin = true then
      match SRemT cfg RedisSources c.args w1 with
      | (w2, err) =>
        match Ok err w2 with
        | (w3, r) => (w3, .ret r)
    else (w1, .ret none)

/-- The `/del_chat` handler. -/
def handle_del_chat (cfg : Config) (c : Context) (w : World) : World × Outcome :=
  match Contains cfg RedisAdmins c.chat w with
  | (w1, .error e) => (w1, .ret (some e))
  | (w1, .ok isAdmin) =>
    if isAdmin = true then
      match SRemT cfg RedisDestinations c.args w1 with
      | (w2, err) =>
        match Ok err w2 with
        | (w3, r) => (w3, .ret r)
    else (w1, .ret none)

/-- The `/del_admin` handler. -/
def handle_del_admin (cfg : Config) (c : Context) (w : World) : World × Outcome :=
  match Contains cfg RedisAdmins c.chat w with
  | (w1, .error e) => (w1, .ret (some e))
  | (w1, .ok isAdmin) =>
    if isAdmin = true then
      match SRemT cfg RedisAdmins c.args w1 with
      | (w2, err) =>
        match Ok err w2 with
        | (w3, r) => (w3, .ret r)
    else (w1, .ret none)

/-- The `/setup` handler: it adds the identity of the sender of the event. -/
def handle_setup (cfg : Config) (c : Context) (w : World) : World × Outcome :=
  match SMembersInt64 cfg RedisAdmins w with
  | (w1, .error e) => (w1, .ret (some e))
  | (w1, .ok admins) =>
    if admins.length = 0 then
      match SAddT cfg RedisAdmins [c.sender] w1 with
      | (w2, err) =>
        match Ok err w2 with
        | (w3, r) => (w3, .ret r)
    else (w1, .ret none)

/-- The handler of the platform's added-to-group event. -/
def handle_added_to_group (cfg : Config) (c : Context) (w : World) : World × Outcome :=
  match SAddT cfg RedisChatsAdded [c.chat] w with
  | (w1, err) => (w1, .ret err)

/-- The `/ping` handler. -/
def handle_ping (w : World) : World × Outcome :=
  match Reply "/pong" w with
  | (w1, err) => (w1, .ret err)

/-- The `/pong` handler. -/
def handle_pong (w : World) : World × Outcome :=
  match Reply "/ping" w with
  | (w1, err) => (w1, .ret err)

/-- The loop of `forward` over the destinations: every failed forward is
handed to the error callback, and a panic of the callback unwinds the loop.
The pause of 100 ms after each forward is not part of the state. -/
def forwardLoop (cfg : Config) : List Int → World → World × Bool
  | [], w => (w, false)
  | dest :: rest, w =>
    match ForwardTo dest w with
    | (w1, none) => forwardLoop cfg rest w1
    | (w1, some e) =>
      match OnError cfg (some e) w1 with
      | (w2, true) => (w2, true)
      | (w2, false) => forwardLoop cfg rest w2

/-- The relay handler `forward`, registered for text and for media. -/
def forward (cfg : Config) (c : Context) (w : World) : World × Outcome :=
  match Contains cfg RedisSources c.chat w with
  | (w1, .error e) => (w1, .ret (some e))
  | (w1, .ok contains) =>
    if contains = true then
      match SMembersInt64 cfg RedisDestinations w1 with
      | (w2, .error e) => (w2, .ret (some e))
      | (w2, .ok dst) =>
        match forwardLoop cfg dst w2 with
        | (w3, true) => (w3, .panic)
        | (w3, false) => (w3, .ret none)
    else (w1, .ret none)

/-! ## The dispatcher -/

/-- The endpoints registered with `bot.Handle`. -/
inductive Command where
  | start | add_chan | add_chat | add_admin | info | clear
  | del_chan | del_chat | del_admin | setup
  | addedToGroup | ping | pong | media | text
  deriving DecidableEq, Repr

/-- The handler registered for each endpoint. -/
def handle (cfg : Config) (cmd : Command) (c : Context) (w : World) : World × Outcome :=
  match cmd with
  | .start => handle_start cfg c w
  | .add_chan => handle_add_chan cfg c w
  | .add_chat => handle_add_chat cfg c w
  | .add_admin => handle_add_admin cfg c w
  | .info => handle_info cfg c w
  | .clear => handle_clear cfg c w
  | .del_chan => handle_del_chan cfg c w
  | .del_chat => handle_del_chat cfg c w
  | .del_admin => handle_del_admin cfg c w
  | .setup => handle_setup cfg c w
  | .addedToGroup => handle_added_to_group cfg c w
  | .ping => handle_ping w
  | .pong => handle_pong w
  | .media => forward cfg c w
  | .text => forward cfg c w

/-- The way telebot runs a handler (`Synchronous: true`): the handler runs to
its end, and an error it returns is passed to the `OnError` callback.  The
second component tells whether the handler or the callback panicked. -/
def runHandler (cfg : Config) (cmd : Command) (c : Context) (w : World) : World × Bool :=
  match handle cfg cmd c w with
  | (w1, .ret none) => (w1, false)
  | (w1, .ret (some e)) => OnError cfg (some e) w1
  | (w1, .panic) => (w1, true)

/-- The events of a run, handled one after the other.  The sets live in the
store, so the run goes on from the store's state after an event whose handling
panicked. -/
def run (cfg : Config) : List (Command × Context) → World → World
  | [], w => w
  | (cmd, c) :: rest, w => run cfg rest (runHandler cfg cmd c w).1

/-! ## Vocabulary of the statements -/

/-- The names of the four sets. -/
def setNames : List String :=
  [RedisAdmins, RedisSources, RedisDestinations, RedisChatsAdded]

/-- The last `k` characters of a string, in reverse. -/
def lastChars (k : Nat) (s : String) : List Char :=
  s.data.reverse.take k

/-- The Admin Set of a deployment, as the store enumerates it. -/
def admins (cfg : Config) (w : World) : List String :=
  w.db (Key [cfg.RedisPrefix, RedisAdmins])

/-- The Source Set. -/
def sources (cfg : Config) (w : World) : List String :=
  w.db (Key [cfg.RedisPrefix, RedisSources])

/-- The Destination Set. -/
def destinations (cfg : Config) (w : World) : List String :=
  w.db (Key [cfg.RedisPrefix, RedisDestinations])

/-- The Membership Set. -/
def allowed (cfg : Config) (w : World) : List String :=
  w.db (Key [cfg.RedisPrefix, RedisChatsAdded])

/-- The commands that are gated by the admin check alone. -/
def gatedCommands : List Command :=
  [.add_admin, .add_chan, .add_chat, .del_admin, .del_chan, .del_chat, .info]

/-- The store answers every call that is still to come without an error. -/
def storeOk (w : World) : Prop :=
  ∀ f ∈ w.storeFaults, f = none

instance (w : World) : Decidable (storeOk w) := by
  unfold storeOk; infer_instance

/-- The state after the store has answered `members.length` calls of `SADD key`
without an error. -/
def afterAdds (key : String) (members : List String) (w : World) : World :=
  { w with
    db := fun k => if k = key then members.foldl setAdd (w.db key) else w.db k,
    storeFaults := w.storeFaults.drop members.length }

/-- The state after the store has answered `members.length` calls of `SREM key`
without an error. -/
def afterRems (key : String) (members : List String) (w : World) : World :=
  { w with
    db := fun k => if k = key then members.foldl setRem (w.db key) else w.db k,
    storeFaults := w.storeFaults.drop members.length }

/-- The store's next `n` answers are not errors. -/
def nextOk (n : Nat) (w : World) : Prop :=
  ∀ f ∈ w.storeFaults.take n, f = none

/-- The text of the `/info` reply, as the three sets joined by newlines under
their headings. -/
def infoText (cfg : Config) (w : World) : String :=
  "- ADMINS:\n" ++ Join (admins cfg w) "\n" ++ "\n---\n- REPOST FROM:\n" ++
    Join (sources cfg w) "\n" ++ "\n---\n- REPOST TO:\n" ++ Join (destinations cfg w) "\n"

/-- A store without faults and without platform calls so far, holding the
given sets under the prefix `p`. -/
def storeOf (adm src dst alw : List String) : World :=
  { db := fun k =>
      if k = "p:admins" then adm
      else if k = "p:src" then src
      else if k = "p:dst" then dst
      else if k = "p:allowed" then alw
      else [],
    storeFaults := [], replyFaults := [], forwardFaults := [], sendFaults := [],
    replies := [], forwards := [], sends := [] }

/-- No `/clear` and no `/del_admin` of the run is issued by a chat that is an
admin at the moment the event is handled. -/
def noAdminRemoval (cfg : Config) : List (Command × Context) → World → Prop
  | [], _ => True
  | (cmd, c) :: rest, w =>
    ((cmd = .clear ∨ cmd = .del_admin) → toString c.chat ∉ admins cfg w) ∧
    noAdminRemoval cfg rest (runHandler cfg cmd c w).1

/-- The condition `noAdminRemoval` can be evaluated. -/
def noAdminRemovalDec (cfg : Config) :
    (evs : List (Command × Context)) → (w : World) → Decidable (noAdminRemoval cfg evs w)
  | [], _ => isTrue trivial
  | (cmd, c) :: rest, w =>
    have : Decidable (noAdminRemoval cfg rest (runHandler cfg cmd c w).1) :=
      noAdminRemovalDec cfg rest (runHandler cfg cmd c w).1
    inferInstanceAs (Decidable
      (((cmd = .clear ∨ cmd = .del_admin) → toString c.chat ∉ admins cfg w) ∧
        noAdminRemoval cfg rest (runHandler cfg cmd c w).1))

instance (cfg : Config) (evs : List (Command × Context)) (w : World) :
    Decidable (noAdminRemoval cfg evs w) :=
  noAdminRemovalDec cfg evs w

instance (n : Nat) (w : World) : Decidable (nextOk n w) := by
  unfold nextOk; infer_instance

/-- A store with the admin 7 and the source 5, in which the first store call
succeeds and the second one fails with `down`. -/
def faultyWorld : World :=
  { storeOf ["7"] ["5"] [] [] with storeFaults := [none, some "down"] }

/-- A store with the admins 7 and 8 in which the next send fails. -/
def sendFailWorld : World :=
  { storeOf ["7", "8"] [] [] [] with sendFaults := [some "net down"] }

/-- A configuration with the prefix `p`. -/
def cfgP : Config := { Token := "t", RedisPrefix := "p" }

/-- A store with two admins (7 and 8), the source 1 and the destinations 111
and 222, in which the next forward fails and every other call succeeds. -/
def relayWorld : World :=
  { db := fun k =>
      if k = "p:admins" then ["7", "8"]
      else if k = "p:src" then ["1"]
      else if k = "p:dst" then ["111", "222"]
      else [],
    storeFaults := [], replyFaults := [], forwardFaults := [some "blocked"], sendFaults := [],
    replies := [], forwards := [], sends := [] }

/-! ## The key layout -/

theorem Key_pair (p n : String) : Key [p, n] = p ++ ":" ++ n := by
  simp [Key, String.intercalate, String.intercalate.go]

theorem Key_cancel (p q n : String) (h : Key [p, n] = Key [q, n]) : p = q := by
  rw [Key_pair, Key_pair] at h
  have hd := congrArg String.data h
  simp at hd
  exact String.ext hd

theorem Key_name_ne (p q n m : String) (hn : n ∈ setNames) (hm : m ∈ setNames)
    (hne : n ≠ m) : Key [p, n] ≠ Key [q, m] := by
  intro h
  rw [Key_pair, Key_pair] at h
  have h8 := congrArg (lastChars 8) h
  simp only [setNames, RedisAdmins, RedisSources, RedisDestinations, RedisChatsAdded,
    List.mem_cons, List.mem_singleton, List.not_mem_nil, or_false] at hn hm
  rcases hn with rfl | rfl | rfl | rfl <;> rcases hm with rfl | rfl | rfl | rfl <;>
    first
    | exact hne rfl
    | (simp [lastChars] at h8)

/-- C9: a key is the prefix, a colon and the set's name; for arbitrary prefixes
and names among the four set names, equal keys have equal prefixes and equal
names, so different prefixes never give a common key and the four sets of one
prefix have four different keys. -/
theorem Key_isolation (p q n m : String) (hn : n ∈ setNames) (hm : m ∈ setNames) :
    Key [p, n] = p ++ ":" ++ n ∧
    (Key [p, n] = Key [q, m] → p = q ∧ n = m) ∧
    (p ≠ q → Key [p, n] ≠ Key [q, m]) ∧
    (n ≠ m → Key [p, n] ≠ Key [p, m]) := by
  have inj : Key [p, n] = Key [q, m] → p = q ∧ n = m := by
    intro h
    by_cases hnm : n = m
    · subst hnm
      exact ⟨Key_cancel p q n h, rfl⟩
    · exact absurd h (Key_name_ne p q n m hn hm hnm)
  refine ⟨Key_pair p n, inj, ?_, ?_⟩
  · intro hpq h
    exact hpq (inj h).1
  · intro hnm
    exact Key_name_ne p p n m hn hm hnm

theorem Key_isolation_witness :
    "admins" ∈ setNames ∧ "src" ∈ setNames ∧
    (Key ["go-reposter:bot42:src", "admins"] = "go-reposter:bot42:src" ++ ":" ++ "admins" ∧
    (Key ["go-reposter:bot42:src", "admins"] = Key ["go-reposter:bot42", "src"] →
      "go-reposter:bot42:src" = "go-reposter:bot42" ∧ "admins" = "src") ∧
    ("go-reposter:bot42:src" ≠ "go-reposter:bot42" →
      Key ["go-reposter:bot42:src", "admins"] ≠ Key ["go-reposter:bot42", "src"]) ∧
    ("admins" ≠ "src" →
      Key ["go-reposter:bot42:src", "admins"] ≠ Key ["go-reposter:bot42:src", "src"])) :=
  ⟨by decide, by decide,
    Key_isolation "go-reposter:bot42:src" "go-reposter:bot42" "admins" "src"
      (by decide) (by decide)⟩

/-! ## The external calls, as equations -/

theorem SIsMember_eq (key member : String) (w : World) :
    SIsMember key member w =
      ({ w with storeFaults := w.storeFaults.tail },
        match w.storeFaults.headD none with
        | some e => .error e
        | none => .ok (decide (member ∈ w.db key))) := by
  unfold SIsMember
  cases w.storeFaults.headD none <;> rfl

theorem Contains_eq {T : Type} [ToString T] (cfg : Config) (key : String) (what : T)
    (w : World) :
    Contains cfg key what w =
      ({ w with storeFaults := w.storeFaults.tail },
        match w.storeFaults.headD none with
        | some e => .error e
        | none => .ok (decide (toString what ∈ w.db (Key [cfg.RedisPrefix, key])))) :=
  SIsMember_eq _ _ w

theorem SMembers_eq (key : String) (w : World) :
    SMembers key w =
      ({ w with storeFaults := w.storeFaults.tail },
        match w.storeFaults.headD none with
        | some e => .error e
        | none => .ok (w.db key)) := by
  unfold SMembers
  cases w.storeFaults.headD none <;> rfl

theorem SMembersInt64_eq (cfg : Config) (key : String) (w : World) :
    SMembersInt64 cfg key w =
      ({ w with storeFaults := w.storeFaults.tail },
        match w.storeFaults.headD none with
        | some e => .error e
        | none => parseMembers (w.db (Key [cfg.RedisPrefix, key]))) := by
  unfold SMembersInt64
  rw [SMembers_eq]
  cases w.storeFaults.headD none <;> rfl

theorem Sprintf_v (a : String) : Sprintf "%v" [a] = a := by
  simp [Sprintf, SprintfAux]

theorem storeOk_head {w : World} (h : storeOk w) : w.storeFaults.headD none = none := by
  unfold storeOk at h
  cases hf : w.storeFaults with
  | nil => rfl
  | cons f fs =>
    rw [hf] at h
    simpa using h f (List.mem_cons_self f fs)

theorem storeOk_tail {w : World} (h : storeOk w) :
    ∀ f ∈ w.storeFaults.tail, f = none :=
  fun f hf => h f (List.mem_of_mem_tail hf)

theorem storeOk_nextOk {w : World} (h : storeOk w) (n : Nat) : nextOk n w :=
  fun f hf => h f (List.mem_of_mem_take hf)

theorem storeOk_drop {w : World} (h : storeOk w) (n : Nat) :
    ∀ f ∈ w.storeFaults.drop n, f = none :=
  fun f hf => h f (List.mem_of_mem_drop hf)

theorem nextOk_head {n : Nat} {w : World} (h : nextOk (n + 1) w) :
    w.storeFaults.headD none = none := by
  unfold nextOk at h
  cases hf : w.storeFaults with
  | nil => rfl
  | cons f fs =>
    rw [hf] at h
    simpa using h f (by simp)

theorem mem_foldl_setAdd (ms l : List String) (x : String) :
    x ∈ ms.foldl setAdd l ↔ x ∈ ms ∨ x ∈ l := by
  induction ms generalizing l with
  | nil => simp
  | cons m ms ih =>
    simp only [List.foldl_cons, ih, List.mem_cons, setAdd]
    by_cases hm : m ∈ l
    · simp only [hm, if_true]
      constructor
      · rintro (h | h)
        · exact Or.inl (Or.inr h)
        · exact Or.inr h
      · rintro ((rfl | h) | h)
        · exact Or.inr hm
        · exact Or.inl h
        · exact Or.inr h
    · simp only [hm, if_false, List.mem_append, List.mem_singleton]
      tauto

theorem mem_foldl_setRem (ms l : List String) (x : String) :
    x ∈ ms.foldl setRem l ↔ x ∈ l ∧ x ∉ ms := by
  induction ms generalizing l with
  | nil => simp
  | cons m ms ih =>
    simp only [List.foldl_cons, ih, List.mem_cons, setRem, List.mem_filter, not_or]
    simp only [ne_eq, decide_not, Bool.not_eq_true', decide_eq_false_iff_not]
    tauto

theorem nextOk_tail {n : Nat} {w : World} (h : nextOk (n + 1) w) :
    ∀ f ∈ w.storeFaults.tail.take n, f = none := by
  intro f hf
  apply h f
  cases hfs : w.storeFaults with
  | nil => simp [hfs] at hf
  | cons g gs =>
    rw [hfs] at hf
    simp only [List.tail_cons] at hf
    simp [List.take_succ_cons, hf]

theorem drop_tail_faults (l : List GoError) (n : Nat) : l.tail.drop n = l.drop (n + 1) := by
  cases l <;> simp

theorem SAddT_eq {T : Type} [ToString T] (cfg : Config) (key : String) (args : List T)
    (w : World) (h : nextOk args.length w) :
    SAddT cfg key args w =
      (afterAdds (Key [cfg.RedisPrefix, key]) (args.map toString) w, none) := by
  induction args generalizing w with
  | nil =>
    simp only [SAddT, Prod.mk.injEq, and_true]
    apply World.ext <;> simp [afterAdds]
    funext k
    by_cases hk : k = Key [cfg.RedisPrefix, key] <;> simp [hk]
  | cons a rest ih =>
    have hh := nextOk_head h
    simp only [SAddT, SAdd, hh, Sprintf_v]
    rw [ih _ (by exact nextOk_tail h)]
    simp only [Prod.mk.injEq, and_true]
    apply World.ext <;> simp [afterAdds, drop_tail_faults]
    funext k
    by_cases hk : k = Key [cfg.RedisPrefix, key] <;> simp [hk]

theorem SRemT_eq {T : Type} [ToString T] (cfg : Config) (key : String) (args : List T)
    (w : World) (h : nextOk args.length w) :
    SRemT cfg key args w =
      (afterRems (Key [cfg.RedisPrefix, key]) (args.map toString) w, none) := by
  induction args generalizing w with
  | nil =>
    simp only [SRemT, Prod.mk.injEq, and_true]
    apply World.ext <;> simp [afterRems]
    funext k
    by_cases hk : k = Key [cfg.RedisPrefix, key] <;> simp [hk]
  | cons a rest ih =>
    have hh := nextOk_head h
    simp only [SRemT, SRem, hh, Sprintf_v]
    rw [ih _ (by exact nextOk_tail h)]
    simp only [Prod.mk.injEq, and_true]
    apply World.ext <;> simp [afterRems, drop_tail_faults]
    funext k
    by_cases hk : k = Key [cfg.RedisPrefix, key] <;> simp [hk]

theorem map_toString_string (l : List String) : l.map toString = l := by
  induction l with
  | nil => rfl
  | cons a l ih => simp only [List.map_cons, ih]; rfl

theorem SAddT_append {T : Type} [ToString T] (cfg : Config) (key : String) (xs ys : List T)
    (w : World) :
    SAddT cfg key (xs ++ ys) w =
      match SAddT cfg key xs w with
      | (w1, some e) => (w1, some e)
      | (w1, none) => SAddT cfg key ys w1 := by
  induction xs generalizing w with
  | nil => simp [SAddT]
  | cons x xs ih =>
    simp only [List.cons_append, SAddT]
    split
    · rfl
    · exact ih _

theorem SRemT_append {T : Type} [ToString T] (cfg : Config) (key : String) (xs ys : List T)
    (w : World) :
    SRemT cfg key (xs ++ ys) w =
      match SRemT cfg key xs w with
      | (w1, some e) => (w1, some e)
      | (w1, none) => SRemT cfg key ys w1 := by
  induction xs generalizing w with
  | nil => simp [SRemT]
  | cons x xs ih =>
    simp only [List.cons_append, SRemT]
    split
    · rfl
    · exact ih _

theorem SAdd_err (key member e : String) (w : World)
    (h : w.storeFaults.headD none = some e) :
    SAdd key member w = ({ w with storeFaults := w.storeFaults.tail }, some e) := by
  unfold SAdd
  rw [h]

theorem SRem_err (key member e : String) (w : World)
    (h : w.storeFaults.headD none = some e) :
    SRem key member w = ({ w with storeFaults := w.storeFaults.tail }, some e) := by
  unfold SRem
  rw [h]

theorem SAddT_stops (cfg : Config) (key : String) (pre post : List String) (a e : String)
    (w : World) (hpre : nextOk pre.length w)
    (he : (w.storeFaults.drop pre.length).headD none = some e) :
    (SAddT cfg key (pre ++ a :: post) w).2 = some e ∧
    (SAddT cfg key (pre ++ a :: post) w).1.db =
      (afterAdds (Key [cfg.RedisPrefix, key]) pre w).db ∧
    (SAddT cfg key (pre ++ a :: post) w).1.replies = w.replies := by
  rw [SAddT_append, SAddT_eq cfg key pre w hpre, map_toString_string]
  have hd : (afterAdds (Key [cfg.RedisPrefix, key]) pre w).storeFaults.headD none = some e := he
  simp only [SAddT, SAdd_err _ _ e _ hd]
  exact ⟨trivial, trivial, rfl⟩

theorem SRemT_stops (cfg : Config) (key : String) (pre post : List String) (a e : String)
    (w : World) (hpre : nextOk pre.length w)
    (he : (w.storeFaults.drop pre.length).headD none = some e) :
    (SRemT cfg key (pre ++ a :: post) w).2 = some e ∧
    (SRemT cfg key (pre ++ a :: post) w).1.db =
      (afterRems (Key [cfg.RedisPrefix, key]) pre w).db ∧
    (SRemT cfg key (pre ++ a :: post) w).1.replies = w.replies := by
  rw [SRemT_append, SRemT_eq cfg key pre w hpre, map_toString_string]
  have hd : (afterRems (Key [cfg.RedisPrefix, key]) pre w).storeFaults.headD none = some e := he
  simp only [SRemT, SRem_err _ _ e _ hd]
  exact ⟨trivial, trivial, rfl⟩

/-- C10: a multi-argument command is not atomic.  When the store answers the
calls for the arguments `pre` without an error, `SAddT` (resp. `SRemT`) on `pre`
applies all of them, returns nil and `Ok` replies `+`; when the call after them
fails with `e`, then on the longer list `pre ++ a :: post` exactly the
arguments `pre` are applied (the set is the one after `pre` alone, so `a` and
`post` are not applied), the function returns `e`, and `Ok` sends no reply. -/
theorem multi_argument_not_atomic (cfg : Config) (key : String) (pre : List String)
    (w : World) (hpre : nextOk pre.length w) :
    ((SAddT cfg key pre w).2 = none ∧
      (∀ x, x ∈ (SAddT cfg key pre w).1.db (Key [cfg.RedisPrefix, key]) ↔
        x ∈ pre ∨ x ∈ w.db (Key [cfg.RedisPrefix, key])) ∧
      (Ok (SAddT cfg key pre w).2 (SAddT cfg key pre w).1).1.replies = w.replies ++ ["+"]) ∧
    ((SRemT cfg key pre w).2 = none ∧
      (∀ x, x ∈ (SRemT cfg key pre w).1.db (Key [cfg.RedisPrefix, key]) ↔
        x ∈ w.db (Key [cfg.RedisPrefix, key]) ∧ x ∉ pre) ∧
      (Ok (SRemT cfg key pre w).2 (SRemT cfg key pre w).1).1.replies = w.replies ++ ["+"]) ∧
    (∀ (a : String) (post : List String) (e : String),
      (w.storeFaults.drop pre.length).headD none = some e →
      ((SAddT cfg key (pre ++ a :: post) w).2 = some e ∧
        (SAddT cfg key (pre ++ a :: post) w).1.db = (SAddT cfg key pre w).1.db ∧
        (∀ x, x ∈ (SAddT cfg key (pre ++ a :: post) w).1.db (Key [cfg.RedisPrefix, key]) ↔
          x ∈ pre ∨ x ∈ w.db (Key [cfg.RedisPrefix, key])) ∧
        Ok (SAddT cfg key (pre ++ a :: post) w).2 (SAddT cfg key (pre ++ a :: post) w).1 =
          ((SAddT cfg key (pre ++ a :: post) w).1, some e) ∧
        (SAddT cfg key (pre ++ a :: post) w).1.replies = w.replies) ∧
      ((SRemT cfg key (pre ++ a :: post) w).2 = some e ∧
        (SRemT cfg key (pre ++ a :: post) w).1.db = (SRemT cfg key pre w).1.db ∧
        (∀ x, x ∈ (SRemT cfg key (pre ++ a :: post) w).1.db (Key [cfg.RedisPrefix, key]) ↔
          x ∈ w.db (Key [cfg.RedisPrefix, key]) ∧ x ∉ pre) ∧
        Ok (SRemT cfg key (pre ++ a :: post) w).2 (SRemT cfg key (pre ++ a :: post) w).1 =
          ((SRemT cfg key (pre ++ a :: post) w).1, some e) ∧
        (SRemT cfg key (pre ++ a :: post) w).1.replies = w.replies)) := by
  have hA := SAddT_eq cfg key pre w hpre
  have hR := SRemT_eq cfg key pre w hpre
  rw [map_toString_string] at hA hR
  refine ⟨?_, ?_, ?_⟩
  · rw [hA]
    refine ⟨rfl, ?_, ?_⟩
    · intro x
      simp [afterAdds, mem_foldl_setAdd]
    · simp [Ok, ReplyTemporary, Reply, afterAdds]
  · rw [hR]
    refine ⟨rfl, ?_, ?_⟩
    · intro x
      simp [afterRems, mem_foldl_setRem]
    · simp [Ok, ReplyTemporary, Reply, afterRems]
  · intro a post e he
    obtain ⟨a1, a2, a3⟩ := SAddT_stops cfg key pre post a e w hpre he
    obtain ⟨r1, r2, r3⟩ := SRemT_stops cfg key pre post a e w hpre he
    refine ⟨⟨a1, ?_, ?_, ?_, a3⟩, ⟨r1, ?_, ?_, ?_, r3⟩⟩
    · rw [a2, hA]
    · intro x
      rw [a2]
      simp [afterAdds, mem_foldl_setAdd]
    · rw [a1]; rfl
    · rw [r2, hR]
    · intro x
      rw [r2]
      simp [afterRems, mem_foldl_setRem]
    · rw [r1]; rfl

/-! ## The error callback leaves the sets and the replies alone -/

theorem onErrorLoop_frame (l : List Int) (err : GoError) (w : World) :
    (onErrorLoop l err w).1.db = w.db ∧
    (onErrorLoop l err w).1.replies = w.replies ∧
    (onErrorLoop l err w).1.forwards = w.forwards ∧
    (onErrorLoop l err w).1.storeFaults = w.storeFaults ∧
    (onErrorLoop l err w).1.forwardFaults = w.forwardFaults := by
  induction l generalizing err w with
  | nil => simp [onErrorLoop]
  | cons a l ih =>
    cases err with
    | none => simp [onErrorLoop]
    | some e =>
      simp only [onErrorLoop]
      obtain ⟨h1, h2, h3, h4, h5⟩ := ih (Send a e w).2 (Send a e w).1
      rw [h1, h2, h3, h4, h5]
      simp [Send]

theorem OnError_frame (cfg : Config) (err : GoError) (w : World) :
    (OnError cfg err w).1.db = w.db ∧
    (OnError cfg err w).1.replies = w.replies ∧
    (OnError cfg err w).1.forwards = w.forwards ∧
    (OnError cfg err w).1.storeFaults = w.storeFaults.tail ∧
    (OnError cfg err w).1.forwardFaults = w.forwardFaults := by
  unfold OnError
  rw [SMembersInt64_eq]
  cases w.storeFaults.headD none with
  | some e =>
    simp only
    obtain ⟨h1, h2, h3, h4, h5⟩ := onErrorLoop_frame [] err { w with storeFaults := w.storeFaults.tail }
    exact ⟨h1, h2, h3, h4, h5⟩
  | none =>
    simp only
    cases parseMembers (w.db (Key [cfg.RedisPrefix, RedisAdmins])) with
    | error e =>
      simp only
      obtain ⟨h1, h2, h3, h4, h5⟩ := onErrorLoop_frame [] err { w with storeFaults := w.storeFaults.tail }
      exact ⟨h1, h2, h3, h4, h5⟩
    | ok l =>
      simp only
      obtain ⟨h1, h2, h3, h4, h5⟩ := onErrorLoop_frame l err { w with storeFaults := w.storeFaults.tail }
      exact ⟨h1, h2, h3, h4, h5⟩

theorem runHandler_frame (cfg : Config) (cmd : Command) (c : Context) (w : World) :
    (runHandler cfg cmd c w).1.db = (handle cfg cmd c w).1.db ∧
    (runHandler cfg cmd c w).1.replies = (handle cfg cmd c w).1.replies ∧
    (runHandler cfg cmd c w).1.forwards = (handle cfg cmd c w).1.forwards := by
  unfold runHandler
  rcases handle cfg cmd c w with ⟨w1, o⟩
  cases o with
  | panic => exact ⟨rfl, rfl, rfl⟩
  | ret err =>
    cases err with
    | none => exact ⟨rfl, rfl, rfl⟩
    | some e =>
      obtain ⟨h1, h2, h3, _, _⟩ := OnError_frame cfg (some e) w1
      exact ⟨h1, h2, h3⟩

/-! ## The authorization gate -/

theorem gate_closed (cfg : Config) (cmd : Command) (c : Context) (w : World)
    (hcmd : cmd ∈ gatedCommands) (hna : toString c.chat ∉ admins cfg w) :
    handle cfg cmd c w =
      ({ w with storeFaults := w.storeFaults.tail }, .ret (w.storeFaults.headD none)) := by
  unfold admins at hna
  simp only [gatedCommands, List.mem_cons, List.mem_singleton, List.not_mem_nil, or_false] at hcmd
  rcases hcmd with rfl | rfl | rfl | rfl | rfl | rfl | rfl <;>
    simp only [handle, handle_add_admin, handle_add_chan, handle_add_chat, handle_del_admin,
      handle_del_chan, handle_del_chat, handle_info] <;>
    rw [Contains_eq] <;>
    cases w.storeFaults.headD none <;> simp [hna]

/-- C1: for every store state, every fault schedule and every event whose chat
identity is not a member of the Admin Set, each of the seven gated commands,
with any arguments, leaves the whole store (hence the four sets) unchanged and
makes no reply call; this holds for the handler alone and for the handler
followed by the error callback that telebot runs on a returned error. -/
theorem unauthorized_is_silent (cfg : Config) (cmd : Command) (c : Context) (w : World)
    (hcmd : cmd ∈ gatedCommands) (hna : toString c.chat ∉ admins cfg w) :
    ((handle cfg cmd c w).1.db = w.db ∧ (handle cfg cmd c w).1.replies = w.replies) ∧
    ((runHandler cfg cmd c w).1.db = w.db ∧ (runHandler cfg cmd c w).1.replies = w.replies) ∧
    (admins cfg (runHandler cfg cmd c w).1 = admins cfg w ∧
      sources cfg (runHandler cfg cmd c w).1 = sources cfg w ∧
      destinations cfg (runHandler cfg cmd c w).1 = destinations cfg w ∧
      allowed cfg (runHandler cfg cmd c w).1 = allowed cfg w) := by
  obtain ⟨h1, h2, _⟩ := runHandler_frame cfg cmd c w
  have hg := gate_closed cfg cmd c w hcmd hna
  have hdb : (runHandler cfg cmd c w).1.db = w.db := by rw [h1, hg]
  refine ⟨⟨by rw [hg], by rw [hg]⟩, ⟨hdb, by rw [h2, hg]⟩, ?_⟩
  simp only [admins, sources, destinations, allowed, hdb, and_self]

/-! ## Adding and removing an admin -/

theorem storeOk_tail_world {w : World} (h : storeOk w) :
    storeOk { w with storeFaults := w.storeFaults.tail } :=
  storeOk_tail h

theorem handle_add_admin_ok (cfg : Config) (c : Context) (w : World) (hok : storeOk w)
    (hadm : toString c.chat ∈ admins cfg w) :
    (handle_add_admin cfg c w).1.db =
      (afterAdds (Key [cfg.RedisPrefix, RedisAdmins]) c.args w).db ∧
    storeOk (handle_add_admin cfg c w).1 := by
  unfold admins at hadm
  unfold handle_add_admin
  rw [Contains_eq, storeOk_head hok]
  simp only [hadm, decide_True, if_true]
  rw [SAddT_eq cfg RedisAdmins c.args _ (storeOk_nextOk (storeOk_tail_world hok) _),
    map_toString_string]
  refine ⟨rfl, ?_⟩
  intro f hf
  exact hok f (List.mem_of_mem_tail (List.mem_of_mem_drop hf))

theorem handle_del_admin_ok (cfg : Config) (c : Context) (w : World) (hok : storeOk w)
    (hadm : toString c.chat ∈ admins cfg w) :
    (handle_del_admin cfg c w).1.db =
      (afterRems (Key [cfg.RedisPrefix, RedisAdmins]) c.args w).db ∧
    storeOk (handle_del_admin cfg c w).1 := by
  unfold admins at hadm
  unfold handle_del_admin
  rw [Contains_eq, storeOk_head hok]
  simp only [hadm, decide_True, if_true]
  rw [SRemT_eq cfg RedisAdmins c.args _ (storeOk_nextOk (storeOk_tail_world hok) _),
    map_toString_string]
  refine ⟨rfl, ?_⟩
  intro f hf
  exact hok f (List.mem_of_mem_tail (List.mem_of_mem_drop hf))

/-- C2: in a state whose store reports no error, after `/add_admin` issued by
an admin with the decimal text of `x` among its arguments, the admin check
`Contains(admins, x)` answers true; and from any such later state, after
`/del_admin` issued by an admin with that argument, the check answers false. -/
theorem add_admin_then_del_admin (cfg : Config) (x : Int) (c1 : Context) (w : World)
    (hok : storeOk w) (hadm : toString c1.chat ∈ admins cfg w)
    (harg : toString x ∈ c1.args) :
    (Contains cfg RedisAdmins x (handle cfg .add_admin c1 w).1).2 = .ok true ∧
    toString x ∈ admins cfg (handle cfg .add_admin c1 w).1 ∧
    storeOk (handle cfg .add_admin c1 w).1 ∧
    (∀ (c2 : Context) (w2 : World), storeOk w2 → toString c2.chat ∈ admins cfg w2 →
      toString x ∈ c2.args →
      (Contains cfg RedisAdmins x (handle cfg .del_admin c2 w2).1).2 = .ok false ∧
      toString x ∉ admins cfg (handle cfg .del_admin c2 w2).1) := by
  obtain ⟨hdb, hok1⟩ := handle_add_admin_ok cfg c1 w hok hadm
  have hmem : toString x ∈ admins cfg (handle cfg .add_admin c1 w).1 := by
    show toString x ∈ (handle_add_admin cfg c1 w).1.db _
    rw [hdb]
    simp [afterAdds, mem_foldl_setAdd, harg]
  refine ⟨?_, hmem, hok1, ?_⟩
  · rw [Contains_eq]
    have hh : (handle cfg .add_admin c1 w).1.storeFaults.headD none = none :=
      storeOk_head hok1
    rw [hh]
    unfold admins at hmem
    simp [hmem]
  · intro c2 w2 hok2 hadm2 harg2
    obtain ⟨hdb2, hok3⟩ := handle_del_admin_ok cfg c2 w2 hok2 hadm2
    have hnot : toString x ∉ admins cfg (handle cfg .del_admin c2 w2).1 := by
      show toString x ∉ (handle_del_admin cfg c2 w2).1.db _
      rw [hdb2]
      simp [afterRems, mem_foldl_setRem, harg2]
    refine ⟨?_, hnot⟩
    rw [Contains_eq]
    have hh : (handle cfg .del_admin c2 w2).1.storeFaults.headD none = none :=
      storeOk_head hok3
    rw [hh]
    unfold admins at hnot
    simp [hnot]

/-! ## The `/info` reply -/

theorem Sprintf_info (a b c : String) :
    Sprintf infoFormat [a, b, c] =
      "- ADMINS:\n" ++ a ++ "\n---\n- REPOST FROM:\n" ++ b ++ "\n---\n- REPOST TO:\n" ++ c := by
  apply String.ext
  simp [Sprintf, infoFormat, SprintfAux]

theorem SMembers_ok (key : String) (w : World) (hok : storeOk w) :
    SMembers key w = ({ w with storeFaults := w.storeFaults.tail }, .ok (w.db key)) := by
  rw [SMembers_eq, storeOk_head hok]

theorem handle_info_db (cfg : Config) (c : Context) (w : World) :
    (handle_info cfg c w).1.db = w.db ∧
    ((handle_info cfg c w).1.replies = w.replies ∨
      (handle_info cfg c w).1.replies = w.replies ++ [infoText cfg w]) := by
  unfold handle_info
  rw [Contains_eq]
  cases w.storeFaults.headD none with
  | some e => exact ⟨rfl, Or.inl rfl⟩
  | none =>
    simp only
    by_cases hadm : toString c.chat ∈ w.db (Key [cfg.RedisPrefix, RedisAdmins])
    · simp only [hadm, decide_True, if_true]
      rw [SMembers_eq]
      cases w.storeFaults.tail.headD none with
      | some e => exact ⟨rfl, Or.inl rfl⟩
      | none =>
        simp only
        rw [SMembers_eq]
        cases w.storeFaults.tail.tail.headD none with
        | some e => exact ⟨rfl, Or.inl rfl⟩
        | none =>
          simp only
          rw [SMembers_eq]
          cases w.storeFaults.tail.tail.tail.headD none with
          | some e => exact ⟨rfl, Or.inl rfl⟩
          | none =>
            simp only [Sprintf_info, Reply, infoText, admins, sources, destinations]
            exact ⟨trivial, Or.inr trivial⟩
    · simp only [hadm, decide_False]
      exact ⟨rfl, Or.inl rfl⟩

/-- C8: for an admin caller and a store that reports no error, the `/info`
reply is exactly the three sets, each joined by newlines, under the headings
ADMINS, REPOST FROM and REPOST TO in that order; for a caller that is not an
admin no reply is made; and under every caller and every fault schedule no set
is modified and no other reply text is ever sent. -/
theorem info_output (cfg : Config) (c : Context) (w : World) :
    (toString c.chat ∈ admins cfg w → storeOk w →
      (handle cfg .info c w).1.replies = w.replies ++
        ["- ADMINS:\n" ++ Join (admins cfg w) "\n" ++ "\n---\n- REPOST FROM:\n" ++
          Join (sources cfg w) "\n" ++ "\n---\n- REPOST TO:\n" ++
          Join (destinations cfg w) "\n"] ∧
      (handle cfg .info c w).2 = .ret (w.replyFaults.headD none)) ∧
    (toString c.chat ∉ admins cfg w → (handle cfg .info c w).1.replies = w.replies) ∧
    (handle cfg .info c w).1.db = w.db ∧
    ((handle cfg .info c w).1.replies = w.replies ∨
      (handle cfg .info c w).1.replies = w.replies ++ [infoText cfg w]) := by
  refine ⟨?_, ?_, (handle_info_db cfg c w).1, (handle_info_db cfg c w).2⟩
  · intro hadm hok
    unfold admins at hadm
    have h1 := storeOk_tail_world hok
    have h2 := storeOk_tail_world h1
    have h3 := storeOk_tail_world h2
    simp only [handle, handle_info]
    rw [Contains_eq, storeOk_head hok]
    simp only [hadm, decide_True, if_true]
    rw [SMembers_ok _ _ h1]
    simp only
    rw [SMembers_ok _ _ h2]
    simp only
    rw [SMembers_ok _ _ h3]
    simp only [Sprintf_info, Reply, admins, sources, destinations, and_self]
  · intro hna
    rw [gate_closed cfg .info c w (by decide) hna]

/-! ## `/clear` -/

theorem Del_ok (keys : List String) (w : World) (hok : storeOk w) :
    Del keys w =
      ({ w with storeFaults := w.storeFaults.tail,
                db := fun k => if k ∈ keys then [] else w.db k }, none) := by
  unfold Del
  rw [storeOk_head hok]

/-- C5, as the code has it: when the store reports no error, `/clear` always
makes the reply call with the confirmation text, whoever the caller is; the
four sets are emptied when the caller is an admin, and the store is left as it
was when the caller is not an admin. -/
theorem clear_effect (cfg : Config) (c : Context) (w : World) (hok : storeOk w) :
    (handle cfg .clear c w).1.replies = w.replies ++ ["cleared.\n/setup?"] ∧
    (toString c.chat ∈ admins cfg w →
      admins cfg (handle cfg .clear c w).1 = [] ∧
      sources cfg (handle cfg .clear c w).1 = [] ∧
      destinations cfg (handle cfg .clear c w).1 = [] ∧
      allowed cfg (handle cfg .clear c w).1 = []) ∧
    (toString c.chat ∉ admins cfg w → (handle cfg .clear c w).1.db = w.db) := by
  have h1 := storeOk_tail_world hok
  simp only [handle, handle_clear, admins, sources, destinations, allowed]
  rw [Contains_eq, storeOk_head hok]
  simp only
  by_cases hadm : toString c.chat ∈ w.db (Key [cfg.RedisPrefix, RedisAdmins])
  · simp only [hadm, decide_True, if_true, Del_ok _ _ h1, Reply, not_true_eq_false,
      false_implies, and_true, true_implies]
    simp
  · simp only [hadm, decide_False, Reply, not_false_eq_true, true_implies, false_implies,
      true_and, and_true]
    simp

/-- C5 as stated fails for a caller that is not an admin: chat 99 is not among
the admins 7 and 8, `/clear` from it replies with the confirmation text and
every set is what it was. -/
theorem clear_by_stranger_keeps_sets :
    storeOk (storeOf ["7", "8"] ["1"] ["111", "222"] ["1"]) ∧
    (handle cfgP .clear ⟨99, 99, []⟩ (storeOf ["7", "8"] ["1"] ["111", "222"] ["1"])).2
      = .ret none ∧
    (handle cfgP .clear ⟨99, 99, []⟩ (storeOf ["7", "8"] ["1"] ["111", "222"] ["1"])).1.replies
      = ["cleared.\n/setup?"] ∧
    admins cfgP (handle cfgP .clear ⟨99, 99, []⟩
      (storeOf ["7", "8"] ["1"] ["111", "222"] ["1"])).1 = ["7", "8"] ∧
    sources cfgP (handle cfgP .clear ⟨99, 99, []⟩
      (storeOf ["7", "8"] ["1"] ["111", "222"] ["1"])).1 = ["1"] ∧
    destinations cfgP (handle cfgP .clear ⟨99, 99, []⟩
      (storeOf ["7", "8"] ["1"] ["111", "222"] ["1"])).1 = ["111", "222"] ∧
    allowed cfgP (handle cfgP .clear ⟨99, 99, []⟩
      (storeOf ["7", "8"] ["1"] ["111", "222"] ["1"])).1 = ["1"] := by
  decide

theorem clear_effect_witness :
    storeOk (storeOf ["7", "8"] ["1"] ["111", "222"] ["1"]) ∧
    (handle cfgP .clear ⟨7, 7, []⟩ (storeOf ["7", "8"] ["1"] ["111", "222"] ["1"])).1.replies
      = (storeOf ["7", "8"] ["1"] ["111", "222"] ["1"]).replies ++ ["cleared.\n/setup?"] ∧
    admins cfgP (handle cfgP .clear ⟨7, 7, []⟩
      (storeOf ["7", "8"] ["1"] ["111", "222"] ["1"])).1 = [] :=
  ⟨by decide,
    (clear_effect cfgP ⟨7, 7, []⟩ (storeOf ["7", "8"] ["1"] ["111", "222"] ["1"])
      (by decide)).1,
    ((clear_effect cfgP ⟨7, 7, []⟩ (storeOf ["7", "8"] ["1"] ["111", "222"] ["1"])
      (by decide)).2.1 (by decide)).1⟩

/-! ## `/setup` -/

theorem parseMembers_length (l : List String) (vs : List Int)
    (h : parseMembers l = .ok vs) : vs.length = l.length := by
  induction l generalizing vs with
  | nil =>
    simp only [parseMembers, Except.ok.injEq] at h
    subst h
    rfl
  | cons a l ih =>
    unfold parseMembers at h
    cases ha : ParseInt a with
    | error e => rw [ha] at h; cases h
    | ok v =>
      rw [ha] at h
      cases hl : parseMembers l with
      | error e => rw [hl] at h; cases h
      | ok ws =>
        rw [hl] at h
        simp only [Except.ok.injEq] at h
        subst h
        simp [ih ws hl]

theorem handle_setup_configured (cfg : Config) (c : Context) (w : World)
    (hne : admins cfg w ≠ []) :
    (handle_setup cfg c w).1.db = w.db ∧ (handle_setup cfg c w).1.replies = w.replies := by
  unfold admins at hne
  unfold handle_setup
  rw [SMembersInt64_eq]
  cases w.storeFaults.headD none with
  | some e => exact ⟨rfl, rfl⟩
  | none =>
    simp only
    cases hp : parseMembers (w.db (Key [cfg.RedisPrefix, RedisAdmins])) with
    | error e => exact ⟨rfl, rfl⟩
    | ok vs =>
      have hlen := parseMembers_length _ _ hp
      have hpos : vs.length ≠ 0 := by
        rw [hlen]
        intro h0
        exact hne (List.length_eq_zero.mp h0)
      simp only [hpos, if_false]
      exact ⟨trivial, trivial⟩

/-- C3, as the code has it: when the Admin Set is empty and the store reports
no error, `/setup` makes the Admin Set exactly the one identity of the sender
of the event, leaves the other keys alone and replies `+`; the admin check on
the chat of the event is true afterwards when the chat identity is the sender
identity; and a `/setup` issued while the Admin Set is not empty leaves the
whole store unchanged and makes no reply call, under every fault schedule. -/
theorem setup_bootstrap (cfg : Config) (c : Context) (w : World) :
    (admins cfg w = [] → storeOk w →
      admins cfg (handle cfg .setup c w).1 = [toString c.sender] ∧
      (∀ k, k ≠ Key [cfg.RedisPrefix, RedisAdmins] →
        (handle cfg .setup c w).1.db k = w.db k) ∧
      (handle cfg .setup c w).1.replies = w.replies ++ ["+"] ∧
      (c.chat = c.sender →
        (Contains cfg RedisAdmins c.chat (handle cfg .setup c w).1).2 = .ok true)) ∧
    (admins cfg w ≠ [] →
      (handle cfg .setup c w).1.db = w.db ∧
      (handle cfg .setup c w).1.replies = w.replies) := by
  refine ⟨?_, handle_setup_configured cfg c w⟩
  intro hemp hok
  unfold admins at hemp
  have h1 := storeOk_tail_world hok
  have hrun : handle cfg .setup c w =
      ((Reply "+" (afterAdds (Key [cfg.RedisPrefix, RedisAdmins]) [toString c.sender]
        { w with storeFaults := w.storeFaults.tail })).1,
       .ret (Reply "+" (afterAdds (Key [cfg.RedisPrefix, RedisAdmins]) [toString c.sender]
        { w with storeFaults := w.storeFaults.tail })).2) := by
    simp only [handle, handle_setup]
    rw [SMembersInt64_eq, storeOk_head hok]
    simp only [hemp, parseMembers, List.length_nil, if_true]
    rw [SAddT_eq cfg RedisAdmins [c.sender] _ (storeOk_nextOk h1 _)]
    rfl
  rw [hrun]
  have hadm : admins cfg (Reply "+" (afterAdds (Key [cfg.RedisPrefix, RedisAdmins])
      [toString c.sender] { w with storeFaults := w.storeFaults.tail })).1
      = [toString c.sender] := by
    simp [admins, Reply, afterAdds, hemp, setAdd]
  refine ⟨hadm, ?_, ?_, ?_⟩
  · intro k hk
    simp [Reply, afterAdds, hk]
  · simp [Reply, afterAdds]
  · intro hcs
    rw [Contains_eq]
    have hh : (Reply "+" (afterAdds (Key [cfg.RedisPrefix, RedisAdmins])
        [toString c.sender] { w with storeFaults := w.storeFaults.tail })).1.storeFaults.headD
        none = none := by
      apply storeOk_head
      intro f hf
      exact hok f (List.mem_of_mem_tail (List.mem_of_mem_drop hf))
    rw [hh]
    unfold admins at hadm
    simp only [hadm, hcs, List.mem_singleton, decide_True]

/-- C3 as stated fails when the chat of the event is not its sender: `/setup`
sent by user 42 in the group chat -100 on an empty Admin Set makes the Admin
Set exactly 42, and the admin check on the chat -100 answers false. -/
theorem setup_from_group_not_admin :
    admins cfgP (storeOf [] [] [] []) = [] ∧
    admins cfgP (handle cfgP .setup ⟨-100, 42, []⟩ (storeOf [] [] [] [])).1 = ["42"] ∧
    (Contains cfgP RedisAdmins (-100 : Int)
      (handle cfgP .setup ⟨-100, 42, []⟩ (storeOf [] [] [] [])).1).2 = .ok false := by
  decide

theorem setup_bootstrap_witness :
    admins cfgP (storeOf [] [] [] []) = [] ∧ storeOk (storeOf [] [] [] []) ∧
    admins cfgP (handle cfgP .setup ⟨42, 42, []⟩ (storeOf [] [] [] [])).1
      = [toString (42 : Int)] ∧
    (Contains cfgP RedisAdmins (42 : Int)
      (handle cfgP .setup ⟨42, 42, []⟩ (storeOf [] [] [] [])).1).2 = .ok true ∧
    admins cfgP (storeOf ["42"] [] [] []) ≠ [] ∧
    (handle cfgP .setup ⟨7, 7, []⟩ (storeOf ["42"] [] [] [])).1.replies
      = (storeOf ["42"] [] [] []).replies :=
  ⟨by decide, by decide,
    ((setup_bootstrap cfgP ⟨42, 42, []⟩ (storeOf [] [] [] [])).1 (by decide) (by decide)).1,
    ((setup_bootstrap cfgP ⟨42, 42, []⟩ (storeOf [] [] [] [])).1
      (by decide) (by decide)).2.2.2 rfl,
    by decide,
    ((setup_bootstrap cfgP ⟨7, 7, []⟩ (storeOf ["42"] [] [] [])).2 (by decide)).2⟩

/-! ## The Admin Set along a run -/

theorem SAddT_grows {T : Type} [ToString T] (cfg : Config) (key : String) (args : List T)
    (w : World) (k x : String) (hx : x ∈ w.db k) : x ∈ (SAddT cfg key args w).1.db k := by
  induction args generalizing w with
  | nil => exact hx
  | cons a rest ih =>
    simp only [SAddT, SAdd]
    cases w.storeFaults.headD none with
    | some e => exact hx
    | none =>
      simp only
      apply ih
      by_cases hk : k = Key [cfg.RedisPrefix, key]
      · subst hk
        simp only [if_true, setAdd]
        split
        · exact hx
        · exact List.mem_append_left _ hx
      · simp only [hk, if_false]
        exact hx

theorem SRemT_other {T : Type} [ToString T] (cfg : Config) (key : String) (args : List T)
    (w : World) (k : String) (hk : k ≠ Key [cfg.RedisPrefix, key]) :
    (SRemT cfg key args w).1.db k = w.db k := by
  induction args generalizing w with
  | nil => rfl
  | cons a rest ih =>
    simp only [SRemT, SRem]
    cases w.storeFaults.headD none with
    | some e => rfl
    | none =>
      simp only
      rw [ih]
      simp only [hk, if_false]

theorem noteLoop_db (cfg : Config) (format : String) (args : List String) (w : World) :
    (noteLoop cfg format args w).db = w.db := by
  induction args generalizing w with
  | nil => rfl
  | cons a rest ih =>
    unfold noteLoop
    rw [Contains_eq]
    cases w.storeFaults.headD none with
    | some e => simp only; rw [ih]
    | none =>
      simp only
      cases decide (toString a ∈ w.db (Key [cfg.RedisPrefix, RedisChatsAdded])) with
      | true => simp only; rw [ih]
      | false => simp only; rw [ih]; rfl

theorem forwardLoop_db (cfg : Config) (dst : List Int) (w : World) :
    (forwardLoop cfg dst w).1.db = w.db := by
  induction dst generalizing w with
  | nil => rfl
  | cons d rest ih =>
    unfold forwardLoop
    simp only [ForwardTo]
    cases w.forwardFaults.headD none with
    | none => simp only; rw [ih]
    | some e =>
      simp only
      have hfr := (OnError_frame cfg (some e)
        { w with forwards := w.forwards ++ [d], forwardFaults := w.forwardFaults.tail }).1
      rcases hO : OnError cfg (some e)
        { w with forwards := w.forwards ++ [d], forwardFaults := w.forwardFaults.tail }
        with ⟨w2, b⟩
      rw [hO] at hfr
      cases b with
      | true => exact hfr
      | false =>
        simp only
        rw [ih]
        exact hfr

theorem Ok_db (err : GoError) (w : World) : (Ok err w).1.db = w.db := by
  cases err <;> rfl

theorem Key_admins_ne_sources (cfg : Config) :
    Key [cfg.RedisPrefix, RedisAdmins] ≠ Key [cfg.RedisPrefix, RedisSources] :=
  Key_name_ne _ _ _ _ (by decide) (by decide) (by decide)

theorem Key_admins_ne_destinations (cfg : Config) :
    Key [cfg.RedisPrefix, RedisAdmins] ≠ Key [cfg.RedisPrefix, RedisDestinations] :=
  Key_name_ne _ _ _ _ (by decide) (by decide) (by decide)

theorem handle_clear_stranger (cfg : Config) (c : Context) (w : World)
    (hna : toString c.chat ∉ admins cfg w) : (handle_clear cfg c w).1.db = w.db := by
  unfold admins at hna
  unfold handle_clear
  rw [Contains_eq]
  cases w.storeFaults.headD none with
  | some e => rfl
  | none => simp only [hna, decide_False]; rfl

theorem handle_keeps_admins (cfg : Config) (cmd : Command) (c : Context) (w : World)
    (hsafe : (cmd = .clear ∨ cmd = .del_admin) → toString c.chat ∉ admins cfg w)
    (x : String) (hx : x ∈ admins cfg w) : x ∈ admins cfg (handle cfg cmd c w).1 := by
  unfold admins at hx ⊢
  cases cmd with
  | start =>
    simp only [handle, handle_start]
    rw [SMembersInt64_eq]
    cases w.storeFaults.headD none with
    | some e => exact hx
    | none =>
      simp only
      cases parseMembers (w.db (Key [cfg.RedisPrefix, RedisAdmins])) with
      | error e => exact hx
      | ok l =>
        simp only
        rw [Contains_eq]
        cases w.storeFaults.tail.headD none with
        | some e => exact hx
        | none =>
          simp only
          split
          · exact hx
          · exact hx
  | add_chan =>
    simp only [handle, handle_add_chan]
    rw [Contains_eq]
    cases w.storeFaults.headD none with
    | some e => exact hx
    | none =>
      simp only
      split
      · rw [Ok_db]
        apply SAddT_grows
        rw [noteLoop_db]
        exact hx
      · exact hx
  | add_chat =>
    simp only [handle, handle_add_chat]
    rw [Contains_eq]
    cases w.storeFaults.headD none with
    | some e => exact hx
    | none =>
      simp only
      split
      · rw [Ok_db]
        apply SAddT_grows
        rw [noteLoop_db]
        exact hx
      · exact hx
  | add_admin =>
    simp only [handle, handle_add_admin]
    rw [Contains_eq]
    cases w.storeFaults.headD none with
    | some e => exact hx
    | none =>
      simp only
      split
      · rw [Ok_db]
        apply SAddT_grows
        exact hx
      · exact hx
  | info =>
    show x ∈ (handle_info cfg c w).1.db _
    rw [(handle_info_db cfg c w).1]
    exact hx
  | clear =>
    show x ∈ (handle_clear cfg c w).1.db _
    rw [handle_clear_stranger cfg c w (hsafe (Or.inl rfl))]
    exact hx
  | del_chan =>
    simp only [handle, handle_del_chan]
    rw [Contains_eq]
    cases w.storeFaults.headD none with
    | some e => exact hx
    | none =>
      simp only
      split
      · rw [Ok_db, SRemT_other _ _ _ _ _ (Key_admins_ne_sources cfg)]
        exact hx
      · exact hx
  | del_chat =>
    simp only [handle, handle_del_chat]
    rw [Contains_eq]
    cases w.storeFaults.headD none with
    | some e => exact hx
    | none =>
      simp only
      split
      · rw [Ok_db, SRemT_other _ _ _ _ _ (Key_admins_ne_destinations cfg)]
        exact hx
      · exact hx
  | del_admin =>
    rw [gate_closed cfg .del_admin c w (by decide) (hsafe (Or.inr rfl))]
    exact hx
  | setup =>
    simp only [handle, handle_setup]
    rw [SMembersInt64_eq]
    cases w.storeFaults.headD none with
    | some e => exact hx
    | none =>
      simp only
      cases parseMembers (w.db (Key [cfg.RedisPrefix, RedisAdmins])) with
      | error e => exact hx
      | ok l =>
        simp only
        split
        · rw [Ok_db]
          apply SAddT_grows
          exact hx
        · exact hx
  | addedToGroup =>
    simp only [handle, handle_added_to_group]
    apply SAddT_grows
    exact hx
  | ping => exact hx
  | pong => exact hx
  | media =>
    simp only [handle, forward]
    rw [Contains_eq]
    cases w.storeFaults.headD none with
    | some e => exact hx
    | none =>
      simp only
      split
      · rw [SMembersInt64_eq]
        cases w.storeFaults.tail.headD none with
        | some e => exact hx
        | none =>
          simp only
          cases parseMembers (w.db (Key [cfg.RedisPrefix, RedisDestinations])) with
          | error e => exact hx
          | ok l =>
            simp only
            have hdb := forwardLoop_db cfg l { w with storeFaults := w.storeFaults.tail.tail }
            rcases hF : forwardLoop cfg l { w with storeFaults := w.storeFaults.tail.tail }
              with ⟨w3, b⟩
            rw [hF] at hdb
            cases b <;> simp only <;> rw [hdb] <;> exact hx
      · exact hx
  | text =>
    simp only [handle, forward]
    rw [Contains_eq]
    cases w.storeFaults.headD none with
    | some e => exact hx
    | none =>
      simp only
      split
      · rw [SMembersInt64_eq]
        cases w.storeFaults.tail.headD none with
        | some e => exact hx
        | none =>
          simp only
          cases parseMembers (w.db (Key [cfg.RedisPrefix, RedisDestinations])) with
          | error e => exact hx
          | ok l =>
            simp only
            have hdb := forwardLoop_db cfg l { w with storeFaults := w.storeFaults.tail.tail }
            rcases hF : forwardLoop cfg l { w with storeFaults := w.storeFaults.tail.tail }
              with ⟨w3, b⟩
            rw [hF] at hdb
            cases b <;> simp only <;> rw [hdb] <;> exact hx
      · exact hx

theorem runHandler_keeps_admins (cfg : Config) (cmd : Command) (c : Context) (w : World)
    (hsafe : (cmd = .clear ∨ cmd = .del_admin) → toString c.chat ∉ admins cfg w)
    (x : String) (hx : x ∈ admins cfg w) : x ∈ admins cfg (runHandler cfg cmd c w).1 := by
  have h := handle_keeps_admins cfg cmd c w hsafe x hx
  unfold admins at h ⊢
  rw [(runHandler_frame cfg cmd c w).1]
  exact h

/-- C7, as the code has it: along every run in which no `/clear` and no
`/del_admin` is issued by a chat that is an admin at that moment, under every
fault schedule, every member of the Admin Set stays a member, so a non-empty
Admin Set stays non-empty. -/
theorem admins_stay (cfg : Config) (evs : List (Command × Context)) (w : World)
    (hsafe : noAdminRemoval cfg evs w) (hne : admins cfg w ≠ []) :
    (∀ x, x ∈ admins cfg w → x ∈ admins cfg (run cfg evs w)) ∧
    admins cfg (run cfg evs w) ≠ [] := by
  have hall : ∀ x, x ∈ admins cfg w → x ∈ admins cfg (run cfg evs w) := by
    induction evs generalizing w with
    | nil => intro x hx; exact hx
    | cons ev rest ih =>
      obtain ⟨cmd, c⟩ := ev
      obtain ⟨h1, h2⟩ := hsafe
      intro x hx
      have hx1 := runHandler_keeps_admins cfg cmd c w h1 x hx
      exact ih (runHandler cfg cmd c w).1 h2 (List.ne_nil_of_mem hx1) x hx1
  refine ⟨hall, ?_⟩
  obtain ⟨x, hx⟩ := List.exists_mem_of_ne_nil _ hne
  exact List.ne_nil_of_mem (hall x hx)

/-- C7 as stated fails: the run of the single command `/del_admin 7`, issued by
the only admin 7, contains no `/clear` and takes the non-empty Admin Set to the
empty one. -/
theorem del_admin_empties_admins :
    admins cfgP (storeOf ["7"] [] [] []) ≠ [] ∧
    (∀ e ∈ [(Command.del_admin, (⟨7, 7, ["7"]⟩ : Context))], e.1 ≠ Command.clear) ∧
    admins cfgP (run cfgP [(Command.del_admin, ⟨7, 7, ["7"]⟩)] (storeOf ["7"] [] [] [])) = [] := by
  decide

theorem admins_stay_witness :
    noAdminRemoval cfgP
      [(Command.add_chan, ⟨7, 7, ["5"]⟩), (Command.del_admin, ⟨99, 99, ["7"]⟩),
        (Command.clear, ⟨99, 99, []⟩)] (storeOf ["7"] [] [] []) ∧
    admins cfgP (storeOf ["7"] [] [] []) ≠ [] ∧
    admins cfgP (run cfgP
      [(Command.add_chan, ⟨7, 7, ["5"]⟩), (Command.del_admin, ⟨99, 99, ["7"]⟩),
        (Command.clear, ⟨99, 99, []⟩)] (storeOf ["7"] [] [] [])) ≠ [] :=
  ⟨by decide, by decide,
    (admins_stay cfgP
      [(Command.add_chan, ⟨7, 7, ["5"]⟩), (Command.del_admin, ⟨99, 99, ["7"]⟩),
        (Command.clear, ⟨99, 99, []⟩)] (storeOf ["7"] [] [] []) (by decide) (by decide)).2⟩

/-! ## The error callback and the relay -/

/-- C6 fails on the code: with the two admins 7 and 8 and every send
succeeding, the callback sends the error text to 7 and then panics on the
`nil` error, so 8 is not notified; and when the send to 7 fails with
`net down`, the callback sends to 8 the text `net down` in place of the text
of the handler error. -/
theorem OnError_two_admins :
    (OnError cfgP (some "boom") (storeOf ["7", "8"] [] [] [])).1.sends = [(7, "boom")] ∧
    (OnError cfgP (some "boom") (storeOf ["7", "8"] [] [] [])).2 = true ∧
    (OnError cfgP (some "boom") sendFailWorld).1.sends = [(7, "boom"), (8, "net down")] ∧
    (OnError cfgP (some "boom") sendFailWorld).2 = false := by
  decide

/-- C4 fails on the code: with the source 1, the destinations 111 and 222 and
the admins 7 and 8, a text from chat 1 whose forward to 111 fails is forwarded
to 111 only; the error callback notifies 7, panics, and the forward to 222 is
never made. -/
theorem forward_stops_after_failure :
    toString (1 : Int) ∈ sources cfgP relayWorld ∧
    parseMembers (destinations cfgP relayWorld) = .ok [111, 222] ∧
    (handle cfgP .text ⟨1, 1, []⟩ relayWorld).1.forwards = [111] ∧
    (handle cfgP .text ⟨1, 1, []⟩ relayWorld).2 = .panic ∧
    (handle cfgP .text ⟨1, 1, []⟩ relayWorld).1.sends = [(7, "blocked")] := by
  decide

theorem forwardLoop_all (cfg : Config) (dst : List Int) (w : World)
    (hfw : ∀ f ∈ w.forwardFaults.take dst.length, f = none) :
    (forwardLoop cfg dst w).1.forwards = w.forwards ++ dst ∧
    (forwardLoop cfg dst w).2 = false := by
  induction dst generalizing w with
  | nil => simp [forwardLoop]
  | cons d rest ih =>
    have hh : w.forwardFaults.headD none = none := by
      cases hf : w.forwardFaults with
      | nil => rfl
      | cons f fs =>
        rw [hf] at hfw
        simpa using hfw f (by simp)
    unfold forwardLoop
    simp only [ForwardTo, hh]
    have ht : ∀ f ∈ w.forwardFaults.tail.take rest.length, f = none := by
      intro f hf
      apply hfw f
      cases hfs : w.forwardFaults with
      | nil => simp [hfs] at hf
      | cons g gs =>
        rw [hfs] at hf
        simp only [List.tail_cons] at hf
        simp [List.take_succ_cons, hf]
    obtain ⟨h1, h2⟩ := ih
      { w with forwards := w.forwards ++ [d], forwardFaults := w.forwardFaults.tail } ht
    rw [h1, h2]
    simp

/-- The relay when no forward fails: a content event from a chat of the Source
Set is forwarded to the whole enumeration of the Destination Set, in order, and
an event from any other chat is forwarded nowhere. -/
theorem forward_all_destinations (cfg : Config) (c : Context) (w : World) (dst : List Int)
    (hok : storeOk w) (hparse : parseMembers (destinations cfg w) = .ok dst)
    (hfw : ∀ f ∈ w.forwardFaults, f = none) :
    (toString c.chat ∈ sources cfg w →
      (forward cfg c w).1.forwards = w.forwards ++ dst ∧ (forward cfg c w).2 = .ret none) ∧
    (toString c.chat ∉ sources cfg w → (forward cfg c w).1.forwards = w.forwards) := by
  unfold sources
  unfold destinations at hparse
  have h1 := storeOk_tail_world hok
  constructor
  · intro hsrc
    unfold forward
    rw [Contains_eq, storeOk_head hok]
    simp only [hsrc, decide_True, if_true]
    rw [SMembersInt64_eq]
    have hh : ({ w with storeFaults := w.storeFaults.tail } : World).storeFaults.headD none
        = none := storeOk_head h1
    rw [hh]
    simp only [hparse]
    obtain ⟨f1, f2⟩ := forwardLoop_all cfg dst
      { w with storeFaults := w.storeFaults.tail.tail }
      (fun f hf => hfw f (List.mem_of_mem_take hf))
    rcases hF : forwardLoop cfg dst { w with storeFaults := w.storeFaults.tail.tail }
      with ⟨w3, b⟩
    rw [hF] at f1 f2
    simp only at f1 f2
    subst f2
    exact ⟨f1, rfl⟩
  · intro hsrc
    unfold forward
    rw [Contains_eq]
    cases w.storeFaults.headD none with
    | some e => rfl
    | none => simp only [hsrc, decide_False]; rfl

/-! ## Instances of the theorems -/

theorem unauthorized_is_silent_witness :
    Command.add_chan ∈ gatedCommands ∧
    toString (99 : Int) ∉ admins cfgP (storeOf ["7"] [] [] []) ∧
    (runHandler cfgP .add_chan ⟨99, 99, ["555"]⟩ (storeOf ["7"] [] [] [])).1.db
      = (storeOf ["7"] [] [] []).db ∧
    (runHandler cfgP .add_chan ⟨99, 99, ["555"]⟩ (storeOf ["7"] [] [] [])).1.replies
      = (storeOf ["7"] [] [] []).replies :=
  ⟨by decide, by decide,
    (unauthorized_is_silent cfgP .add_chan ⟨99, 99, ["555"]⟩ (storeOf ["7"] [] [] [])
      (by decide) (by decide)).2.1⟩

theorem add_admin_then_del_admin_witness :
    storeOk (storeOf ["7"] [] [] []) ∧
    toString (7 : Int) ∈ admins cfgP (storeOf ["7"] [] [] []) ∧
    toString (8 : Int) ∈ ["8"] ∧
    (Contains cfgP RedisAdmins (8 : Int)
      (handle cfgP .add_admin ⟨7, 7, ["8"]⟩ (storeOf ["7"] [] [] [])).1).2 = .ok true ∧
    (Contains cfgP RedisAdmins (8 : Int)
      (handle cfgP .del_admin ⟨7, 7, ["8"]⟩
        (handle cfgP .add_admin ⟨7, 7, ["8"]⟩ (storeOf ["7"] [] [] [])).1).1).2 = .ok false :=
  ⟨by decide, by decide, by decide,
    (add_admin_then_del_admin cfgP 8 ⟨7, 7, ["8"]⟩ (storeOf ["7"] [] [] [])
      (by decide) (by decide) (by decide)).1,
    ((add_admin_then_del_admin cfgP 8 ⟨7, 7, ["8"]⟩ (storeOf ["7"] [] [] [])
      (by decide) (by decide) (by decide)).2.2.2 ⟨7, 7, ["8"]⟩
      (handle cfgP .add_admin ⟨7, 7, ["8"]⟩ (storeOf ["7"] [] [] [])).1
      (by decide) (by decide) (by decide)).1⟩

theorem info_output_witness :
    toString (7 : Int) ∈ admins cfgP (storeOf ["7", "8"] ["1"] ["111", "222"] []) ∧
    storeOk (storeOf ["7", "8"] ["1"] ["111", "222"] []) ∧
    (handle cfgP .info ⟨7, 7, []⟩ (storeOf ["7", "8"] ["1"] ["111", "222"] [])).1.replies
      = (storeOf ["7", "8"] ["1"] ["111", "222"] []).replies ++
        ["- ADMINS:\n" ++ Join (admins cfgP (storeOf ["7", "8"] ["1"] ["111", "222"] [])) "\n"
          ++ "\n---\n- REPOST FROM:\n" ++
          Join (sources cfgP (storeOf ["7", "8"] ["1"] ["111", "222"] [])) "\n" ++
          "\n---\n- REPOST TO:\n" ++
          Join (destinations cfgP (storeOf ["7", "8"] ["1"] ["111", "222"] [])) "\n"] ∧
    toString (99 : Int) ∉ admins cfgP (storeOf ["7", "8"] ["1"] ["111", "222"] []) ∧
    (handle cfgP .info ⟨99, 99, []⟩ (storeOf ["7", "8"] ["1"] ["111", "222"] [])).1.replies
      = (storeOf ["7", "8"] ["1"] ["111", "222"] []).replies :=
  ⟨by decide, by decide,
    ((info_output cfgP ⟨7, 7, []⟩ (storeOf ["7", "8"] ["1"] ["111", "222"] [])).1
      (by decide) (by decide)).1,
    by decide,
    (info_output cfgP ⟨99, 99, []⟩ (storeOf ["7", "8"] ["1"] ["111", "222"] [])).2.1
      (by decide)⟩

theorem multi_argument_not_atomic_witness :
    nextOk ["6"].length faultyWorld ∧
    (faultyWorld.storeFaults.drop ["6"].length).headD none = some "down" ∧
    (SAddT cfgP RedisSources (["6"] ++ "8" :: ["9"]) faultyWorld).2 = some "down" ∧
    (SAddT cfgP RedisSources (["6"] ++ "8" :: ["9"]) faultyWorld).1.db
      = (SAddT cfgP RedisSources ["6"] faultyWorld).1.db ∧
    (SRemT cfgP RedisSources (["6"] ++ "8" :: ["9"]) faultyWorld).2 = some "down" :=
  ⟨by decide, by decide,
    ((multi_argument_not_atomic cfgP RedisSources ["6"] faultyWorld (by decide)).2.2
      "8" ["9"] "down" (by decide)).1.1,
    ((multi_argument_not_atomic cfgP RedisSources ["6"] faultyWorld (by decide)).2.2
      "8" ["9"] "down" (by decide)).1.2.1,
    ((multi_argument_not_atomic cfgP RedisSources ["6"] faultyWorld (by decide)).2.2
      "8" ["9"] "down" (by decide)).2.1⟩

end Reposter
